import Mathlib

/-! Shallow embedding of the bslc repository: the sliding-window rate limiter
(`src/lib/rateLimiter.ts`), the request-gating middleware (`middleware.ts`)
and the price calculator (`src/lib/priceCalculator.ts` with
`src/config/stations.ts`), together with proofs of the specification claims
about them.  Timestamps (milliseconds since epoch) and all rate limiter
arithmetic are modelled as integers; JavaScript number arithmetic on prices is
modelled over the rationals.  `Date.now()` is passed explicitly as a `now`
argument, one value per call, and environment-derived configuration
(`NO_RATE_LIMIT_IPS`, `ALLOWED_ORIGINS`) is passed as already split lists. -/

/-- Entry of the rate limiter store: `{ requests: number[]; lastCleanup: number }`
(interface `RateLimitEntry` in `src/lib/rateLimiter.ts`). -/
structure RateLimitEntry where
  requests : List Int
  lastCleanup : Int
deriving DecidableEq

/-- Result value of a rate limit check (interface `RateLimitResult`). -/
structure RateLimitResult where
  allowed : Bool
  limit : Int
  remaining : Int
  resetTime : Int
deriving DecidableEq

/-- State of the `RateLimiter` class.  The JavaScript `Map` is modelled as an
insertion-ordered association list. -/
structure RateLimiter where
  store : List (String × RateLimitEntry)
  windowMs : Int
  maxRequests : Int
  cleanupInterval : Int
  lastGlobalCleanup : Int
deriving DecidableEq

/-- Lookup in an insertion-ordered association list (JavaScript `Map.get`):
returns the value of the first binding of the key. -/
def lookupA {α : Type} (k : String) : List (String × α) → Option α
  | [] => none
  | (k1, v) :: rest => if k1 = k then some v else lookupA k rest

/-- JavaScript `Map.set`: replaces the value in place if the key is present,
otherwise appends the binding at the end (insertion order). -/
def alistSet {α : Type} (k : String) (v : α) : List (String × α) → List (String × α)
  | [] => [(k, v)]
  | (k1, v1) :: rest => if k1 = k then (k, v) :: rest else (k1, v1) :: alistSet k v rest

/-- JavaScript `Map.delete`. -/
def alistDelete {α : Type} (k : String) : List (String × α) → List (String × α)
  | [] => []
  | (k1, v1) :: rest => if k1 = k then rest else (k1, v1) :: alistDelete k rest

/-- Keys of a JavaScript `Map` are unique; every association list produced by
`Map` operations satisfies this predicate. -/
def keysNodup {α : Type} (l : List (String × α)) : Prop := (l.map Prod.fst).Nodup

instance {α : Type} (l : List (String × α)) : Decidable (keysNodup l) := by
  unfold keysNodup; infer_instance

/-- Body of the `for` loop of the private `RateLimiter.cleanup` method: every
entry keeps only the timestamps with `now - timestamp < windowMs`; an entry
whose filtered list is empty is deleted from the store, otherwise its requests
are replaced and its `lastCleanup` is set to `now`. -/
def cleanupStore (now windowMs : Int) : List (String × RateLimitEntry) → List (String × RateLimitEntry)
  | [] => []
  | (k, e) :: rest =>
    let validRequests := e.requests.filter (fun timestamp => now - timestamp < windowMs)
    if validRequests.length = 0 then cleanupStore now windowMs rest
    else (k, { requests := validRequests, lastCleanup := now }) :: cleanupStore now windowMs rest

/-- The private `RateLimiter.cleanup` method: a no-op unless at least
`cleanupInterval` milliseconds have elapsed since the last global cleanup. -/
def RateLimiter.cleanup (s : RateLimiter) (now : Int) : RateLimiter :=
  if now - s.lastGlobalCleanup < s.cleanupInterval then s
  else { s with store := cleanupStore now s.windowMs s.store, lastGlobalCleanup := now }

/-- The method `RateLimiter.checkRateLimit`, embedded line by line: run the
opportunistic cleanup, fetch or create the identifier's entry, filter its
timestamps to the sliding window, decide admission, append `now` when allowed,
and compute the result value object. -/
def RateLimiter.checkRateLimit (s : RateLimiter) (identifier : String) (now : Int) :
    RateLimiter × RateLimitResult :=
  let s1 := s.cleanup now
  let entry := (lookupA identifier s1.store).getD { requests := [], lastCleanup := now }
  let filtered := entry.requests.filter (fun timestamp => timestamp > now - s1.windowMs)
  let remaining : Int := max 0 (s1.maxRequests - (filtered.length : Int))
  let allowed : Bool := decide ((filtered.length : Int) < s1.maxRequests)
  let newRequests := if allowed = true then filtered ++ [now] else filtered
  let oldestRequest := newRequests.head?.getD now
  let resetTime := oldestRequest + s1.windowMs
  ({ s1 with
      store := alistSet identifier
        { requests := newRequests, lastCleanup := entry.lastCleanup } s1.store },
   { allowed := allowed, limit := s1.maxRequests,
     remaining := if allowed = true then remaining - 1 else remaining,
     resetTime := resetTime })

/-- The method `RateLimiter.reset`. -/
def RateLimiter.reset (s : RateLimiter) (identifier : String) : RateLimiter :=
  { s with store := alistDelete identifier s.store }

/-- The method `RateLimiter.getStats`: `(totalKeys, totalRequests)`. -/
def RateLimiter.getStats (s : RateLimiter) : Int × Int :=
  ((s.store.length : Int), (s.store.map (fun kv => (kv.2.requests.length : Int))).sum)

/-- The module-level singleton `new RateLimiter(60000, 10)`; `Date.now()` at
module load time is passed as `now`. -/
def rateLimiterSingleton (now : Int) : RateLimiter :=
  { store := [], windowMs := 60000, maxRequests := 10, cleanupInterval := 60000,
    lastGlobalCleanup := now }

/-- The exported `checkRateLimit` function: identifiers on the
`NO_RATE_LIMIT_IPS` allow-list receive a synthetic always-allowed result
without touching the limiter at all. -/
def checkRateLimit (noRateLimitIps : List String) (s : RateLimiter) (ip : String) (now : Int) :
    RateLimiter × RateLimitResult :=
  if noRateLimitIps.contains ip then
    (s, { allowed := true, limit := 10, remaining := 9, resetTime := now + 60000 })
  else
    s.checkRateLimit ip now

/-- JavaScript truthiness of a nullable string (header value): `null` and the
empty string are falsy. -/
def truthy : Option String → Bool
  | none => false
  | some v => decide (v ≠ "")

/-- The exported `getClientIP` function, as a function of the three headers it
reads: first x-forwarded-for entry, then x-real-ip, then cf-connecting-ip,
else the loopback fallback. -/
def getClientIP (xForwardedFor xRealIp cfConnectingIp : Option String) : String :=
  if truthy xForwardedFor = true then (((xForwardedFor.getD "").splitOn ",").headD "").trim
  else if truthy xRealIp = true then (xRealIp.getD "").trim
  else if truthy cfConnectingIp = true then (cfConnectingIp.getD "").trim
  else "127.0.0.1"

/-- JavaScript `String.prototype.startsWith`, modelled over the character
list (the library `String.startsWith` is byte-level and not
kernel-computable). -/
def strStartsWith (s p : String) : Bool := p.toList.isPrefixOf s.toList

/-- The part of a request the middleware reads: the pathname and the five
headers. -/
structure MwRequest where
  path : String
  origin : Option String
  referer : Option String
  xForwardedFor : Option String
  xRealIp : Option String
  cfConnectingIp : Option String
deriving DecidableEq

/-- Outcome of the middleware.  `rateLimited` is the 429 JSON response with its
numeric `X-RateLimit-Limit`, `X-RateLimit-Remaining`, `X-RateLimit-Reset` and
`Retry-After` header values; `nextWithHeaders` forwards the request stamping
the three rate limit headers; `forbidden` is the bare 403 response;
`next` passes the request through unmodified. -/
inductive MwResponse where
  | rateLimited (limit remaining resetTime retryAfter : Int)
  | nextWithHeaders (limit remaining resetTime : Int)
  | forbidden
  | next
deriving DecidableEq

/-- `Math.ceil(a / 1000)` for an integer `a`: Euclidean division by the
positive constant 1000 is floor division, and the ceiling is the negated floor
of the negation. -/
def jsCeilDiv1000 (a : Int) : Int := -(Int.ediv (-a) 1000)

/-- `origin && allowedOrigins.includes(origin)` from the middleware, with
JavaScript truthiness on the header value. -/
def isAllowedOrigin (allowedOrigins : List String) (origin : Option String) : Bool :=
  truthy origin && allowedOrigins.contains (origin.getD "")

/-- `referer && allowedOrigins.some(allowed => referer.startsWith(allowed))`
from the middleware. -/
def isAllowedReferer (allowedOrigins : List String) (referer : Option String) : Bool :=
  truthy referer && allowedOrigins.any (fun allowed => strStartsWith (referer.getD "") allowed)

/-- The `middleware` function: public-prefixed paths are rate limited by
client IP; other `/api` paths are origin-gated; everything else passes
through. -/
def middleware (allowedOrigins noRateLimitIps : List String) (s : RateLimiter)
    (request : MwRequest) (now : Int) : RateLimiter × MwResponse :=
  if strStartsWith request.path "/api/public" = true then
    let clientIP := getClientIP request.xForwardedFor request.xRealIp request.cfConnectingIp
    let p := checkRateLimit noRateLimitIps s clientIP now
    if p.2.allowed = false then
      (p.1, MwResponse.rateLimited p.2.limit p.2.remaining p.2.resetTime
        (jsCeilDiv1000 (p.2.resetTime - now)))
    else
      (p.1, MwResponse.nextWithHeaders p.2.limit p.2.remaining p.2.resetTime)
  else if (strStartsWith request.path "/api" && !(strStartsWith request.path "/api/public")) = true then
    if (!(isAllowedOrigin allowedOrigins request.origin)
        && !(isAllowedReferer allowedOrigins request.referer)) = true then
      (s, MwResponse.forbidden)
    else (s, MwResponse.next)
  else (s, MwResponse.next)

/-- A station of `src/config/stations.ts`. -/
structure Station where
  id : String
  name : String
  system : String
  systemId : Int
deriving DecidableEq

/-- The configuration record of `src/config/stations.ts`. -/
structure Config where
  stations : List Station
  priceMatrix : List (String × List (String × ℚ))
  maxVolume : ℚ
  maxCollateral : ℚ
  collateralPercentage : ℚ
  defaultPickupStation : String
  defaultDestinationStation : String

/-- The literal `stationsConfig` value of `src/config/stations.ts`.  Note that
every price matrix row and column is keyed `37s-ko-vi` although the station
list contains the id `37s-ko-vi-moon-14`. -/
def stationsConfig : Config :=
  { stations :=
      [ { id := "jita-iv-moon-4", name := "Jita IV - Moon 4 - Caldari Navy Assembly Plant",
          system := "Jita", systemId := 30000142 },
        { id := "saminer", name := "Saminer - Stain is for Stain People",
          system := "Saminer", systemId := 30001721 },
        { id := "t-nnjz", name := "T-NNJZ - meow meow",
          system := "T-NNJZ", systemId := 30001959 },
        { id := "z-xmuc", name := "Z-XMUC - Ends of Invention",
          system := "Z-XMUC", systemId := 30001929 },
        { id := "o-fthe", name := "O-FTHE - Good Sax Nightmare Dealership",
          system := "O-FTHE", systemId := 30001938 },
        { id := "y-4u62", name := "Y-4U62 - Neural-Link Giga Factory",
          system := "Y-4U62", systemId := 30001932 },
        { id := "37s-ko-vi-moon-14", name := "37S-KO VI - Moon 14 - True Creations Assembly Plant",
          system := "37S-KO", systemId := 30001868 } ],
    priceMatrix :=
      [ ("jita-iv-moon-4",
          [("jita-iv-moon-4", 0), ("saminer", 300), ("t-nnjz", 650), ("z-xmuc", 650),
           ("o-fthe", 650), ("y-4u62", 650), ("37s-ko-vi", 650)]),
        ("saminer",
          [("jita-iv-moon-4", 300), ("saminer", 0), ("t-nnjz", 650), ("z-xmuc", 650),
           ("o-fthe", 650), ("y-4u62", 650), ("37s-ko-vi", 650)]),
        ("t-nnjz",
          [("jita-iv-moon-4", 650), ("saminer", 650), ("t-nnjz", 650), ("z-xmuc", 650),
           ("o-fthe", 650), ("y-4u62", 650), ("37s-ko-vi", 650)]),
        ("z-xmuc",
          [("jita-iv-moon-4", 650), ("saminer", 650), ("t-nnjz", 650), ("z-xmuc", 650),
           ("o-fthe", 650), ("y-4u62", 650), ("37s-ko-vi", 650)]),
        ("o-fthe",
          [("jita-iv-moon-4", 650), ("saminer", 650), ("t-nnjz", 650), ("z-xmuc", 650),
           ("o-fthe", 650), ("y-4u62", 650), ("37s-ko-vi", 0)]),
        ("y-4u62",
          [("jita-iv-moon-4", 650), ("saminer", 650), ("t-nnjz", 650), ("z-xmuc", 650),
           ("o-fthe", 650), ("y-4u62", 650), ("37s-ko-vi", 650)]),
        ("37s-ko-vi",
          [("jita-iv-moon-4", 650), ("saminer", 650), ("t-nnjz", 650), ("z-xmuc", 650),
           ("o-fthe", 650), ("y-4u62", 650), ("37s-ko-vi", 650)]) ],
    maxVolume := 345000,
    maxCollateral := 3000000000,
    collateralPercentage := 1/100,
    defaultPickupStation := "jita-iv-moon-4",
    defaultDestinationStation := "y-4u62" }

/-- Request body of the calculation endpoint. -/
structure CalculatePriceRequest where
  pickupStationId : String
  destinationStationId : String
  volume : ℚ
  collateral : ℚ
deriving DecidableEq

/-- Response body of the calculation endpoint. -/
structure CalculatePriceResponse where
  basePrice : ℚ
  collateralFee : ℚ
  totalPrice : ℚ
  pickupStation : String
  destinationStation : String
  volume : ℚ
  collateral : ℚ
deriving DecidableEq

/-- `stationsConfig.priceMatrix[pickup]?.[destination]` (optional chaining:
`none` when the row or the cell is missing). -/
def findRate (pickupStationId destinationStationId : String) : Option ℚ :=
  (lookupA pickupStationId stationsConfig.priceMatrix).bind
    (fun row => lookupA destinationStationId row)

/-- `validateCalculationRequest` from `src/lib/priceCalculator.ts`; a thrown
`PriceCalculationError` is modelled as `Except.error` of its message. -/
def validateCalculationRequest (request : CalculatePriceRequest) : Except String Unit :=
  if request.pickupStationId = "" ∨ request.destinationStationId = "" then
    Except.error "Pickup and destination stations are required"
  else if request.volume ≤ 0 ∨ request.volume > stationsConfig.maxVolume then
    Except.error "Volume must be between 0 and 345,000 m³"
  else if request.collateral < 0 ∨ request.collateral > stationsConfig.maxCollateral then
    Except.error "Collateral must be between 0 and 3,000,000,000 ISK"
  else if (stationsConfig.stations.find? (fun st => st.id = request.pickupStationId)).isNone then
    Except.error "Invalid pickup station"
  else if (stationsConfig.stations.find?
      (fun st => st.id = request.destinationStationId)).isNone then
    Except.error "Invalid destination station"
  else if (findRate request.pickupStationId request.destinationStationId).isNone then
    Except.error "Price route not available"
  else Except.ok ()

/-- `calculatePrice` from `src/lib/priceCalculator.ts`: validate, then look up
the rate and combine it with volume and collateral.  The TypeScript non-null
assertions after successful validation are modelled by `getD` defaults that
are never reached when validation succeeds. -/
def calculatePrice (request : CalculatePriceRequest) : Except String CalculatePriceResponse :=
  match validateCalculationRequest request with
  | Except.error e => Except.error e
  | Except.ok _ =>
    let pickupStation := (stationsConfig.stations.find?
      (fun st => st.id = request.pickupStationId)).getD { id := "", name := "", system := "", systemId := 0 }
    let destinationStation := (stationsConfig.stations.find?
      (fun st => st.id = request.destinationStationId)).getD { id := "", name := "", system := "", systemId := 0 }
    let pricePerM3 := (findRate request.pickupStationId request.destinationStationId).getD 0
    let basePrice := pricePerM3 * request.volume
    let collateralFee := request.collateral * stationsConfig.collateralPercentage
    let totalPrice := basePrice + collateralFee
    Except.ok
      { basePrice := basePrice, collateralFee := collateralFee, totalPrice := totalPrice,
        pickupStation := pickupStation.name, destinationStation := destinationStation.name,
        volume := request.volume, collateral := request.collateral }

/-- The timestamp list currently stored for an identifier (empty when the
identifier has no entry). -/
def entryRequests (s : RateLimiter) (id : String) : List Int :=
  ((lookupA id s.store).getD { requests := [], lastCleanup := 0 }).requests

/-- The timestamps of the identifier's entry that survive the sliding-window
filter of a `checkRateLimit` call at time `now` (after the opportunistic
cleanup, before the admitted request is appended); its length is the `count`
the admission decision is made from. -/
def windowSeqPre (s : RateLimiter) (id : String) (now : Int) : List Int :=
  ((lookupA id (s.cleanup now).store).getD { requests := [], lastCleanup := now }).requests.filter
    (fun timestamp => timestamp > now - (s.cleanup now).windowMs)

/-- The timestamp sequence stored for the identifier after a `checkRateLimit`
call at time `now`: the surviving timestamps, with `now` appended when the
call is admitted. -/
def windowSeqAfter (s : RateLimiter) (id : String) (now : Int) : List Int :=
  if (decide (((windowSeqPre s id now).length : Int) < (s.cleanup now).maxRequests)) = true
  then windowSeqPre s id now ++ [now]
  else windowSeqPre s id now

theorem checkRateLimit_allowed (s : RateLimiter) (id : String) (now : Int) :
    (s.checkRateLimit id now).2.allowed =
      decide (((windowSeqPre s id now).length : Int) < (s.cleanup now).maxRequests) := rfl

theorem checkRateLimit_limit (s : RateLimiter) (id : String) (now : Int) :
    (s.checkRateLimit id now).2.limit = (s.cleanup now).maxRequests := rfl

theorem checkRateLimit_remaining (s : RateLimiter) (id : String) (now : Int) :
    (s.checkRateLimit id now).2.remaining =
      if (decide (((windowSeqPre s id now).length : Int) < (s.cleanup now).maxRequests)) = true
      then max 0 ((s.cleanup now).maxRequests - ((windowSeqPre s id now).length : Int)) - 1
      else max 0 ((s.cleanup now).maxRequests - ((windowSeqPre s id now).length : Int)) := rfl

theorem checkRateLimit_resetTime (s : RateLimiter) (id : String) (now : Int) :
    (s.checkRateLimit id now).2.resetTime =
      (windowSeqAfter s id now).head?.getD now + (s.cleanup now).windowMs := rfl

theorem checkRateLimit_store (s : RateLimiter) (id : String) (now : Int) :
    (s.checkRateLimit id now).1.store =
      alistSet id
        { requests := windowSeqAfter s id now,
          lastCleanup := ((lookupA id (s.cleanup now).store).getD
            { requests := [], lastCleanup := now }).lastCleanup }
        (s.cleanup now).store := rfl

theorem cleanup_windowMs (s : RateLimiter) (now : Int) : (s.cleanup now).windowMs = s.windowMs := by
  unfold RateLimiter.cleanup; split <;> rfl

theorem cleanup_maxRequests (s : RateLimiter) (now : Int) :
    (s.cleanup now).maxRequests = s.maxRequests := by
  unfold RateLimiter.cleanup; split <;> rfl

theorem cleanup_cleanupInterval (s : RateLimiter) (now : Int) :
    (s.cleanup now).cleanupInterval = s.cleanupInterval := by
  unfold RateLimiter.cleanup; split <;> rfl

theorem checkRateLimit_fst_windowMs (s : RateLimiter) (id : String) (now : Int) :
    (s.checkRateLimit id now).1.windowMs = s.windowMs := cleanup_windowMs s now

theorem checkRateLimit_fst_maxRequests (s : RateLimiter) (id : String) (now : Int) :
    (s.checkRateLimit id now).1.maxRequests = s.maxRequests := cleanup_maxRequests s now

theorem lookupA_alistSet_self {α : Type} (k : String) (v : α) (l : List (String × α)) :
    lookupA k (alistSet k v l) = some v := by
  induction l with
  | nil => simp [alistSet, lookupA]
  | cons p rest ih =>
    obtain ⟨k1, v1⟩ := p
    by_cases h : k1 = k
    · simp [alistSet, h, lookupA]
    · simp [alistSet, h, lookupA, ih]

theorem lookupA_eq_none_of_not_mem_keys {α : Type} (k : String) (l : List (String × α))
    (h : k ∉ l.map Prod.fst) : lookupA k l = none := by
  induction l with
  | nil => rfl
  | cons p rest ih =>
    obtain ⟨k1, v1⟩ := p
    simp only [List.map_cons, List.mem_cons] at h
    push_neg at h
    simp only [lookupA]
    rw [if_neg (fun hh => h.1 hh.symm)]
    exact ih h.2

theorem lookupA_cleanupStore_none (k : String) (now w : Int) (l : List (String × RateLimitEntry))
    (h : lookupA k l = none) : lookupA k (cleanupStore now w l) = none := by
  induction l with
  | nil => simp [cleanupStore, lookupA]
  | cons p rest ih =>
    obtain ⟨k1, e⟩ := p
    by_cases hk : k1 = k
    · simp [lookupA, hk] at h
    · simp only [lookupA, hk, if_false] at h
      simp only [cleanupStore]
      split
      · exact ih h
      · simp [lookupA, hk, ih h]

theorem lookupA_cleanupStore_pos (k : String) (now w : Int) (l : List (String × RateLimitEntry))
    (e : RateLimitEntry) (h : lookupA k l = some e)
    (hne : (e.requests.filter (fun timestamp => now - timestamp < w)).length ≠ 0) :
    lookupA k (cleanupStore now w l) =
      some { requests := e.requests.filter (fun timestamp => now - timestamp < w),
             lastCleanup := now } := by
  induction l with
  | nil => simp [lookupA] at h
  | cons p rest ih =>
    obtain ⟨k1, e1⟩ := p
    by_cases hk : k1 = k
    · simp only [lookupA, hk, if_true, Option.some.injEq] at h
      subst h
      simp only [cleanupStore]
      split
      · omega
      · simp [lookupA, hk]
    · simp only [lookupA, hk, if_false] at h
      simp only [cleanupStore]
      split
      · exact ih h
      · simp [lookupA, hk, ih h]

theorem keys_cleanupStore_sublist (now w : Int) (l : List (String × RateLimitEntry)) :
    List.Sublist ((cleanupStore now w l).map Prod.fst) (l.map Prod.fst) := by
  induction l with
  | nil => simp [cleanupStore]
  | cons p rest ih =>
    obtain ⟨k1, e1⟩ := p
    simp only [cleanupStore]
    split
    · exact ih.trans (List.sublist_cons_self _ _)
    · simpa using ih.cons₂ k1

theorem keysNodup_cleanupStore (now w : Int) (l : List (String × RateLimitEntry))
    (h : keysNodup l) : keysNodup (cleanupStore now w l) :=
  h.sublist (keys_cleanupStore_sublist now w l)

theorem mem_keys_alistSet {α : Type} (x k : String) (v : α) (l : List (String × α))
    (h : x ∈ (alistSet k v l).map Prod.fst) : x = k ∨ x ∈ l.map Prod.fst := by
  induction l with
  | nil => simpa [alistSet] using h
  | cons p rest ih =>
    obtain ⟨k1, v1⟩ := p
    by_cases hk : k1 = k
    · subst hk
      simpa [alistSet] using h
    · simp only [alistSet, hk, if_false, List.map_cons, List.mem_cons] at h
      rcases h with h | h
      · right; simp [h]
      · rcases ih h with h1 | h1
        · left; exact h1
        · right; simp [h1]

theorem keysNodup_alistSet {α : Type} (k : String) (v : α) (l : List (String × α))
    (h : keysNodup l) : keysNodup (alistSet k v l) := by
  induction l with
  | nil => simp [keysNodup, alistSet]
  | cons p rest ih =>
    obtain ⟨k1, v1⟩ := p
    rw [keysNodup, List.map_cons, List.nodup_cons] at h
    by_cases hk : k1 = k
    · subst hk
      rw [keysNodup, alistSet]
      simp only [if_true]
      rw [List.map_cons, List.nodup_cons]
      exact h
    · rw [keysNodup, alistSet]
      simp only [hk, if_false]
      rw [List.map_cons, List.nodup_cons]
      refine ⟨fun hmem => ?_, ih h.2⟩
      rcases mem_keys_alistSet k1 k v rest hmem with h1 | h1
      · exact hk h1
      · exact h.1 h1

theorem lookupA_cleanupStore_nodup (k : String) (now w : Int)
    (l : List (String × RateLimitEntry)) (hn : keysNodup l) :
    lookupA k (cleanupStore now w l) =
      (lookupA k l).bind (fun e =>
        if (e.requests.filter (fun timestamp => now - timestamp < w)).length = 0 then none
        else some { requests := e.requests.filter (fun timestamp => now - timestamp < w),
                    lastCleanup := now }) := by
  induction l with
  | nil => simp [cleanupStore, lookupA]
  | cons p rest ih =>
    obtain ⟨k1, e1⟩ := p
    rw [keysNodup, List.map_cons, List.nodup_cons] at hn
    by_cases hk : k1 = k
    · subst hk
      simp only [lookupA, if_true, Option.some_bind]
      simp only [cleanupStore]
      split
      · exact lookupA_cleanupStore_none k1 now w rest
          (lookupA_eq_none_of_not_mem_keys k1 rest hn.1)
      · simp [lookupA]
    · simp only [lookupA, hk, if_false]
      simp only [cleanupStore]
      split
      · exact ih hn.2
      · simp only [lookupA, hk, if_false]
        exact ih hn.2

theorem filter_window_equiv (l : List Int) (now w : Int) :
    l.filter (fun timestamp => now - timestamp < w) =
      l.filter (fun timestamp => timestamp > now - w) := by
  apply List.filter_congr
  intro x _
  simp only [decide_eq_decide]
  omega

theorem filter_filter_window (l : List Int) (now w : Int) :
    (l.filter (fun timestamp => now - timestamp < w)).filter
        (fun timestamp => timestamp > now - w) =
      l.filter (fun timestamp => timestamp > now - w) := by
  rw [filter_window_equiv l now w, List.filter_filter]
  apply List.filter_congr
  intro x _
  simp

theorem cleanup_store (s : RateLimiter) (now : Int) :
    (s.cleanup now).store =
      if now - s.lastGlobalCleanup < s.cleanupInterval then s.store
      else cleanupStore now s.windowMs s.store := by
  unfold RateLimiter.cleanup; split <;> rfl

theorem windowSeqPre_eq (s : RateLimiter) (id : String) (now : Int)
    (hn : keysNodup s.store) :
    windowSeqPre s id now = (entryRequests s id).filter
      (fun timestamp => timestamp > now - s.windowMs) := by
  unfold windowSeqPre entryRequests
  rw [cleanup_windowMs, cleanup_store]
  by_cases hc : now - s.lastGlobalCleanup < s.cleanupInterval
  · rw [if_pos hc]
    cases h : lookupA id s.store with
    | none => simp
    | some e => simp
  · rw [if_neg hc]
    rw [lookupA_cleanupStore_nodup id now s.windowMs s.store hn]
    cases h : lookupA id s.store with
    | none => simp
    | some e =>
      simp only [Option.some_bind]
      split
      · rename_i hlen
        simp only [Option.getD_none, Option.getD_some]
        rw [← filter_filter_window e.requests now s.windowMs]
        simp only [List.length_eq_zero] at hlen
        rw [hlen]
      · simp only [Option.getD_some]
        exact filter_filter_window e.requests now s.windowMs

/-- C4: the `remaining` field is never negative; on a rejected call it equals
`max 0 (limit - count)` where `count` is the number of timestamps surviving
the window filter; immediately after an allowed call it never exceeds
`limit - 1`. -/
theorem rateLimiter_remaining_bounds (s : RateLimiter) (id : String) (now : Int) :
    0 ≤ (s.checkRateLimit id now).2.remaining ∧
    ((s.checkRateLimit id now).2.allowed = false →
      (s.checkRateLimit id now).2.remaining =
        max 0 (s.maxRequests - ((windowSeqPre s id now).length : Int))) ∧
    ((s.checkRateLimit id now).2.allowed = true →
      (s.checkRateLimit id now).2.remaining ≤ s.maxRequests - 1) := by
  rw [checkRateLimit_remaining, checkRateLimit_allowed, cleanup_maxRequests]
  simp only [decide_eq_true_eq, decide_eq_false_iff_not]
  refine ⟨?_, ?_, ?_⟩
  · split_ifs with h <;> omega
  · intro hfalse
    rw [if_neg hfalse]
  · intro htrue
    rw [if_pos htrue]
    omega

/-- Witness for C4 at a concrete call on the fresh singleton state. -/
theorem rateLimiter_remaining_bounds_witness :
    0 ≤ ((rateLimiterSingleton 0).checkRateLimit "1.2.3.4" 0).2.remaining ∧
    (((rateLimiterSingleton 0).checkRateLimit "1.2.3.4" 0).2.allowed = false →
      ((rateLimiterSingleton 0).checkRateLimit "1.2.3.4" 0).2.remaining =
        max 0 ((rateLimiterSingleton 0).maxRequests -
          ((windowSeqPre (rateLimiterSingleton 0) "1.2.3.4" 0).length : Int))) ∧
    (((rateLimiterSingleton 0).checkRateLimit "1.2.3.4" 0).2.allowed = true →
      ((rateLimiterSingleton 0).checkRateLimit "1.2.3.4" 0).2.remaining ≤
        (rateLimiterSingleton 0).maxRequests - 1) :=
  rateLimiter_remaining_bounds (rateLimiterSingleton 0) "1.2.3.4" 0

/-- C10: an identifier on the `NO_RATE_LIMIT_IPS` allow-list receives the
synthetic result and the limiter state is returned untouched, so `getStats`
is unchanged. -/
theorem checkRateLimit_allowlist_frame (noRateLimitIps : List String) (s : RateLimiter)
    (ip : String) (now : Int) (h : ip ∈ noRateLimitIps) :
    checkRateLimit noRateLimitIps s ip now =
      (s, { allowed := true, limit := 10, remaining := 9, resetTime := now + 60000 }) ∧
    (checkRateLimit noRateLimitIps s ip now).1.getStats = s.getStats := by
  have hc : noRateLimitIps.contains ip = true := List.elem_eq_true_of_mem h
  unfold checkRateLimit
  rw [if_pos hc]
  exact ⟨rfl, rfl⟩

/-- Witness for C10 at a concrete allow-listed identifier. -/
theorem checkRateLimit_allowlist_frame_witness :
    checkRateLimit ["10.0.0.5"] (rateLimiterSingleton 7) "10.0.0.5" 123 =
      (rateLimiterSingleton 7,
        { allowed := true, limit := 10, remaining := 9, resetTime := 123 + 60000 }) ∧
    (checkRateLimit ["10.0.0.5"] (rateLimiterSingleton 7) "10.0.0.5" 123).1.getStats =
      (rateLimiterSingleton 7).getStats :=
  checkRateLimit_allowlist_frame ["10.0.0.5"] (rateLimiterSingleton 7) "10.0.0.5" 123
    (by simp)

theorem resetTime_pos_method (s : RateLimiter) (id : String) (now : Int)
    (hw : 0 < s.windowMs) : now < (s.checkRateLimit id now).2.resetTime := by
  rw [checkRateLimit_resetTime, cleanup_windowMs]
  cases hh : (windowSeqAfter s id now).head? with
  | none =>
    simp only [Option.getD_none]
    omega
  | some x =>
    have hx : x ∈ windowSeqAfter s id now := List.mem_of_mem_head? hh
    have hcase : x > now - s.windowMs ∨ x = now := by
      unfold windowSeqAfter at hx
      split at hx
      · rcases List.mem_append.mp hx with h1 | h1
        · left
          unfold windowSeqPre at h1
          have h2 := List.of_mem_filter h1
          rw [cleanup_windowMs] at h2
          simpa using h2
        · right
          simpa using h1
      · left
        unfold windowSeqPre at hx
        have h2 := List.of_mem_filter hx
        rw [cleanup_windowMs] at h2
        simpa using h2
    simp only [Option.getD_some]
    omega

theorem resetTime_pos_exported (noRateLimitIps : List String) (s : RateLimiter) (ip : String)
    (now : Int) (hw : 0 < s.windowMs) :
    now < (checkRateLimit noRateLimitIps s ip now).2.resetTime := by
  unfold checkRateLimit
  split
  · simp only []
    omega
  · exact resetTime_pos_method s ip now hw

theorem jsCeilDiv1000_nonneg (a : Int) (ha : 0 < a) : 0 ≤ jsCeilDiv1000 a := by
  unfold jsCeilDiv1000
  have h2 : Int.ediv (-a) 1000 < 0 := Int.ediv_neg' (by omega) (by norm_num)
  omega

/-- C2: a 429 response from the middleware carries a Retry-After value equal
to the ceiling of `(resetTime - now)` in seconds, and it is never negative. -/
theorem middleware_retryAfter (allowedOrigins noRateLimitIps : List String) (s : RateLimiter)
    (req : MwRequest) (now : Int) (l rem rt ra : Int) (hw : 0 < s.windowMs)
    (h : (middleware allowedOrigins noRateLimitIps s req now).2 =
      MwResponse.rateLimited l rem rt ra) :
    ra = jsCeilDiv1000 (rt - now) ∧ 0 ≤ ra := by
  unfold middleware at h
  by_cases hp : strStartsWith req.path "/api/public" = true
  · rw [if_pos hp] at h
    simp only [] at h
    by_cases hall : (checkRateLimit noRateLimitIps s
        (getClientIP req.xForwardedFor req.xRealIp req.cfConnectingIp) now).2.allowed = false
    · rw [if_pos hall] at h
      simp only [MwResponse.rateLimited.injEq] at h
      obtain ⟨-, -, hrt, hra⟩ := h
      subst hrt hra
      refine ⟨rfl, jsCeilDiv1000_nonneg _ ?_⟩
      have := resetTime_pos_exported noRateLimitIps s
        (getClientIP req.xForwardedFor req.xRealIp req.cfConnectingIp) now hw
      omega
    · rw [if_neg hall] at h
      simp at h
  · rw [if_neg hp] at h
    by_cases hq : (strStartsWith req.path "/api" && !(strStartsWith req.path "/api/public")) = true
    · rw [if_pos hq] at h
      split at h <;> simp at h
    · rw [if_neg hq] at h
      simp at h

/-- Witness for C2: a concrete rejected public request, with Retry-After 60. -/
theorem middleware_retryAfter_witness :
    (0 : Int) < 60000 ∧ ((60 : Int) = jsCeilDiv1000 (60001 - 100) ∧ (0 : Int) ≤ 60) :=
  ⟨by norm_num,
    middleware_retryAfter [] []
      { store := [("127.0.0.1",
          { requests := [1, 2, 3, 4, 5, 6, 7, 8, 9, 10], lastCleanup := 0 })],
        windowMs := 60000, maxRequests := 10, cleanupInterval := 60000,
        lastGlobalCleanup := 100 }
      { path := "/api/public/calculate", origin := none, referer := none,
        xForwardedFor := none, xRealIp := none, cfConnectingIp := none }
      100 10 0 60001 60 (by norm_num) (by decide)⟩

/-- Minimum of an integer list, `none` for the empty list. -/
def listMin? : List Int → Option Int
  | [] => none
  | x :: xs => some (xs.foldl min x)

theorem foldl_min_eq_self (xs : List Int) (x : Int) (h : ∀ y ∈ xs, x ≤ y) :
    xs.foldl min x = x := by
  induction xs generalizing x with
  | nil => rfl
  | cons y ys ih =>
    simp only [List.foldl_cons]
    rw [min_eq_left (h y (by simp))]
    exact ih x (fun z hz => h z (by simp [hz]))

theorem listMin?_of_sorted (l : List Int) (h : List.Chain' (· ≤ ·) l) :
    listMin? l = l.head? := by
  cases l with
  | nil => rfl
  | cons x xs =>
    simp only [listMin?, List.head?_cons, Option.some.injEq]
    exact foldl_min_eq_self xs x
      (fun y hy => List.rel_of_pairwise_cons (List.chain'_iff_pairwise.mp h) hy)

theorem keysNodup_cleanup (s : RateLimiter) (now : Int) (hn : keysNodup s.store) :
    keysNodup (s.cleanup now).store := by
  rw [cleanup_store]
  split
  · exact hn
  · exact keysNodup_cleanupStore now s.windowMs s.store hn

theorem windowSeqAfter_of_rejected (s : RateLimiter) (id : String) (now : Int)
    (hrej : (s.checkRateLimit id now).2.allowed = false) :
    windowSeqAfter s id now = windowSeqPre s id now := by
  rw [checkRateLimit_allowed] at hrej
  unfold windowSeqAfter
  rw [if_neg]
  simp [hrej]

theorem mem_windowSeqPre_window (s : RateLimiter) (id : String) (now : Int) (x : Int)
    (hx : x ∈ windowSeqPre s id now) : x > now - s.windowMs := by
  unfold windowSeqPre at hx
  have h2 := List.of_mem_filter hx
  rw [cleanup_windowMs] at h2
  simpa using h2

theorem mem_windowSeqPre_entry (s : RateLimiter) (id : String) (now : Int)
    (hn : keysNodup s.store) (x : Int) (hx : x ∈ windowSeqPre s id now) :
    x ∈ entryRequests s id := by
  rw [windowSeqPre_eq s id now hn] at hx
  exact List.mem_of_mem_filter hx

/-- C5: the returned `resetTime` is the oldest timestamp of the identifier's
stored window sequence (after filtering, and after appending `now` when the
call is admitted) plus `windowMs`, or `now + windowMs` when that sequence is
empty.  The hypotheses state the reachable-state invariant: stored timestamps
are sorted and not in the future. -/
theorem rateLimiter_resetTime_eq (s : RateLimiter) (id : String) (now : Int)
    (hn : keysNodup s.store)
    (hsort : List.Chain' (· ≤ ·) (entryRequests s id))
    (hle : ∀ x ∈ entryRequests s id, x ≤ now) :
    (s.checkRateLimit id now).2.resetTime =
      (listMin? (windowSeqAfter s id now)).getD now + s.windowMs := by
  rw [checkRateLimit_resetTime, cleanup_windowMs]
  have hsortPre : List.Chain' (· ≤ ·) (windowSeqPre s id now) := by
    rw [windowSeqPre_eq s id now hn]
    exact hsort.sublist (List.filter_sublist _)
  have hsortAfter : List.Chain' (· ≤ ·) (windowSeqAfter s id now) := by
    unfold windowSeqAfter
    split
    · rw [List.chain'_append]
      refine ⟨hsortPre, by simp, ?_⟩
      intro x hx y hy
      simp only [List.head?_cons, Option.mem_def, Option.some.injEq] at hy
      subst hy
      exact hle x (mem_windowSeqPre_entry s id now hn x
        (List.mem_of_mem_getLast? hx))
    · exact hsortPre
  rw [listMin?_of_sorted _ hsortAfter]

/-- Witness for C5: one stored timestamp, admitted call; the oldest surviving
timestamp is 5, so the reset time is 5 + 60000. -/
theorem rateLimiter_resetTime_eq_witness :
    keysNodup (RateLimiter.store
      { store := [("a", { requests := [5], lastCleanup := 0 })], windowMs := 60000,
        maxRequests := 10, cleanupInterval := 60000, lastGlobalCleanup := 0 }) ∧
    (∀ x ∈ entryRequests
      { store := [("a", { requests := [5], lastCleanup := 0 })], windowMs := 60000,
        maxRequests := 10, cleanupInterval := 60000, lastGlobalCleanup := 0 } "a", x ≤ 10) ∧
    (RateLimiter.checkRateLimit
      { store := [("a", { requests := [5], lastCleanup := 0 })], windowMs := 60000,
        maxRequests := 10, cleanupInterval := 60000, lastGlobalCleanup := 0 } "a" 10).2.resetTime =
      (listMin? (windowSeqAfter
        { store := [("a", { requests := [5], lastCleanup := 0 })], windowMs := 60000,
          maxRequests := 10, cleanupInterval := 60000, lastGlobalCleanup := 0 } "a" 10)).getD 10
        + 60000 := by
  refine ⟨by decide, by decide, ?_⟩
  exact rateLimiter_resetTime_eq _ "a" 10 (by decide)
    (by simp [entryRequests, lookupA]) (by decide)

/-- C7: a rejected call appends nothing; after it the identifier's stored
timestamp sequence is exactly the previously stored timestamps that survive
the window filter. -/
theorem rateLimiter_rejected_no_append (s : RateLimiter) (id : String) (now : Int)
    (hn : keysNodup s.store)
    (hrej : (s.checkRateLimit id now).2.allowed = false) :
    (lookupA id (s.checkRateLimit id now).1.store).map RateLimitEntry.requests =
      some ((entryRequests s id).filter (fun timestamp => timestamp > now - s.windowMs)) := by
  rw [checkRateLimit_store, lookupA_alistSet_self]
  simp only [Option.map_some']
  rw [windowSeqAfter_of_rejected s id now hrej]
  exact congrArg some (windowSeqPre_eq s id now hn)

/-- Witness for C7: an identifier with ten stored timestamps is rejected and
its entry is left as the filtered list, with nothing appended. -/
theorem rateLimiter_rejected_no_append_witness :
    keysNodup (RateLimiter.store
      { store := [("a", { requests := [0, 0, 0, 0, 0, 0, 0, 0, 0, 0], lastCleanup := 0 })],
        windowMs := 60000, maxRequests := 10, cleanupInterval := 60000,
        lastGlobalCleanup := 0 }) ∧
    (lookupA "a" (RateLimiter.checkRateLimit
      { store := [("a", { requests := [0, 0, 0, 0, 0, 0, 0, 0, 0, 0], lastCleanup := 0 })],
        windowMs := 60000, maxRequests := 10, cleanupInterval := 60000,
        lastGlobalCleanup := 0 } "a" 5).1.store).map RateLimitEntry.requests =
      some ((entryRequests
        { store := [("a", { requests := [0, 0, 0, 0, 0, 0, 0, 0, 0, 0], lastCleanup := 0 })],
          windowMs := 60000, maxRequests := 10, cleanupInterval := 60000,
          lastGlobalCleanup := 0 } "a").filter (fun timestamp => timestamp > 5 - 60000)) := by
  refine ⟨by decide, ?_⟩
  exact rateLimiter_rejected_no_append _ "a" 5 (by decide) (by decide)

/-- C6: after a rejected call, a later call strictly past the returned
`resetTime`, with no intervening calls for the identifier, is allowed.  The
`hcap` hypothesis is the reachable-state invariant that the surviving window
count never exceeds `maxRequests`. -/
theorem rateLimiter_allowed_after_reset (s : RateLimiter) (id : String) (t t1 : Int)
    (hn : keysNodup s.store) (hm : 0 < s.maxRequests)
    (hcap : ((windowSeqPre s id t).length : Int) ≤ s.maxRequests)
    (hrej : (s.checkRateLimit id t).2.allowed = false)
    (ht1 : (s.checkRateLimit id t).2.resetTime < t1) :
    ((s.checkRateLimit id t).1.checkRateLimit id t1).2.allowed = true := by
  have hrej2 : ¬ (((windowSeqPre s id t).length : Int) < s.maxRequests) := by
    rw [checkRateLimit_allowed, cleanup_maxRequests] at hrej
    simpa using hrej
  have hlen : ((windowSeqPre s id t).length : Int) = s.maxRequests := le_antisymm hcap (by omega)
  have hne : windowSeqPre s id t ≠ [] := by
    intro h0
    rw [h0] at hlen
    simp at hlen
    omega
  obtain ⟨h0, rest, hpre⟩ := List.exists_cons_of_ne_nil hne
  rw [checkRateLimit_resetTime, cleanup_windowMs, windowSeqAfter_of_rejected s id t hrej,
    hpre] at ht1
  simp only [List.head?_cons, Option.getD_some] at ht1
  have hstore : (s.checkRateLimit id t).1.store =
      alistSet id
        { requests := windowSeqPre s id t,
          lastCleanup := ((lookupA id (s.cleanup t).store).getD
            { requests := [], lastCleanup := t }).lastCleanup }
        (s.cleanup t).store := by
    rw [checkRateLimit_store, windowSeqAfter_of_rejected s id t hrej]
  have hn1 : keysNodup (s.checkRateLimit id t).1.store := by
    rw [hstore]
    exact keysNodup_alistSet _ _ _ (keysNodup_cleanup s t hn)
  have hentry : entryRequests (s.checkRateLimit id t).1 id = windowSeqPre s id t := by
    unfold entryRequests
    rw [hstore, lookupA_alistSet_self]
    rfl
  rw [checkRateLimit_allowed, cleanup_maxRequests, checkRateLimit_fst_maxRequests]
  rw [windowSeqPre_eq _ id t1 hn1, hentry, checkRateLimit_fst_windowMs, hpre]
  have hh0 : (decide (h0 > t1 - s.windowMs)) = false := by
    simp only [decide_eq_false_iff_not]
    omega
  rw [List.filter_cons_of_neg (by simp [hh0])]
  have hle2 : (rest.filter (fun timestamp => timestamp > t1 - s.windowMs)).length ≤
      rest.length := List.length_filter_le _ _
  have hlenrest : ((h0 :: rest).length : Int) = s.maxRequests := by
    rw [← hpre]
    exact hlen
  simp only [List.length_cons] at hlenrest
  simp only [decide_eq_true_eq]
  omega

/-- Witness for C6: ten timestamps at 0 exhaust the quota at time 0 with
reset time 60000; the next call at 60001 is allowed. -/
theorem rateLimiter_allowed_after_reset_witness :
    keysNodup (RateLimiter.store
      { store := [("a", { requests := [0, 0, 0, 0, 0, 0, 0, 0, 0, 0], lastCleanup := 0 })],
        windowMs := 60000, maxRequests := 10, cleanupInterval := 60000,
        lastGlobalCleanup := 0 }) ∧
    ((RateLimiter.checkRateLimit
      { store := [("a", { requests := [0, 0, 0, 0, 0, 0, 0, 0, 0, 0], lastCleanup := 0 })],
        windowMs := 60000, maxRequests := 10, cleanupInterval := 60000,
        lastGlobalCleanup := 0 } "a" 0).1.checkRateLimit "a" 60001).2.allowed = true := by
  refine ⟨by decide, ?_⟩
  exact rateLimiter_allowed_after_reset _ "a" 0 60001 (by decide) (by decide)
    (by decide) (by decide) (by decide)

/-- Run a sequence of `checkRateLimit` calls for one identifier at the given
times, returning the final state and the list of results. -/
def runSeq (id : String) : RateLimiter → List Int → RateLimiter × List RateLimitResult
  | s, [] => (s, [])
  | s, t :: ts =>
    let p := s.checkRateLimit id t
    let q := runSeq id p.1 ts
    (q.1, p.2 :: q.2)

/-- The (allowed, remaining) pair produced by a call that sees `k` prior
requests in the window against quota `m`. -/
def specPair (k m : Int) : Bool × Int :=
  (decide (k < m), if k < m then m - 1 - k else 0)

theorem specPair_ge (k k1 m : Int) (hk : m ≤ k) (hk1 : m ≤ k1) :
    specPair k m = specPair k1 m := by
  unfold specPair
  rw [if_neg (by omega), if_neg (by omega), decide_eq_false (by omega),
    decide_eq_false (by omega)]

theorem windowSeqPre_of_inv (s : RateLimiter) (id : String) (acc : List Int) (t : Int)
    (hw : ∀ x ∈ acc, t - x < s.windowMs)
    (hinv : (acc = [] ∧ lookupA id s.store = none) ∨
      (acc ≠ [] ∧ ∃ c, lookupA id s.store = some { requests := acc, lastCleanup := c })) :
    windowSeqPre s id t = acc := by
  have hf1 : acc.filter (fun timestamp => t - timestamp < s.windowMs) = acc :=
    List.filter_eq_self.mpr (fun x hx => by simpa using hw x hx)
  have hf2 : acc.filter (fun timestamp => timestamp > t - s.windowMs) = acc :=
    List.filter_eq_self.mpr (fun x hx => by
      have := hw x hx
      simp only [decide_eq_true_eq]
      omega)
  unfold windowSeqPre
  rw [cleanup_windowMs, cleanup_store]
  rcases hinv with ⟨rfl, hl⟩ | ⟨hne, c, hl⟩
  · split
    · rw [hl]
      simp
    · rw [lookupA_cleanupStore_none id t s.windowMs s.store hl]
      simp
  · split
    · rw [hl]
      simpa using hf2
    · rw [lookupA_cleanupStore_pos id t s.windowMs s.store _ hl
        (by rw [hf1]; exact fun h => hne (List.length_eq_zero.mp h))]
      simpa [hf1] using hf2

theorem inv_after_call (s : RateLimiter) (id : String) (acc : List Int) (t : Int)
    (hm : 0 < s.maxRequests)
    (hpre : windowSeqPre s id t = acc) :
    ((if ((acc.length : Int) < s.maxRequests) then acc ++ [t] else acc) = [] ∧
        lookupA id (s.checkRateLimit id t).1.store = none) ∨
      ((if ((acc.length : Int) < s.maxRequests) then acc ++ [t] else acc) ≠ [] ∧
        ∃ c, lookupA id (s.checkRateLimit id t).1.store =
          some { requests := if ((acc.length : Int) < s.maxRequests) then acc ++ [t] else acc,
                 lastCleanup := c }) := by
  have hafter : windowSeqAfter s id t =
      if ((acc.length : Int) < s.maxRequests) then acc ++ [t] else acc := by
    unfold windowSeqAfter
    rw [hpre, cleanup_maxRequests]
    simp only [decide_eq_true_eq]
  right
  constructor
  · split
    · simp
    · rename_i hc
      intro h0
      rw [h0] at hc
      simp at hc
      omega
  · refine ⟨((lookupA id (s.cleanup t).store).getD
      { requests := [], lastCleanup := t }).lastCleanup, ?_⟩
    rw [checkRateLimit_store, lookupA_alistSet_self, hafter]

theorem runSeq_spec (id : String) (ts : List Int) : ∀ (s : RateLimiter) (acc : List Int),
    0 < s.maxRequests →
    ((acc = [] ∧ lookupA id s.store = none) ∨
      (acc ≠ [] ∧ ∃ c, lookupA id s.store = some { requests := acc, lastCleanup := c })) →
    (∀ x ∈ acc ++ ts, ∀ t ∈ ts, t - x < s.windowMs) →
    (runSeq id s ts).2.map (fun r => (r.allowed, r.remaining)) =
      (List.range ts.length).map
        (fun (i : Nat) => specPair ((acc.length : Int) + (i : Int)) s.maxRequests) := by
  induction ts with
  | nil =>
    intro s acc hm hinv hw
    simp [runSeq]
  | cons t ts1 ih =>
    intro s acc hm hinv hw
    have hw_acc : ∀ x ∈ acc, t - x < s.windowMs := fun x hx =>
      hw x (List.mem_append.mpr (Or.inl hx)) t (by simp)
    have hpre : windowSeqPre s id t = acc := windowSeqPre_of_inv s id acc t hw_acc hinv
    have hallow : (s.checkRateLimit id t).2.allowed =
        decide (((acc.length : Int)) < s.maxRequests) := by
      rw [checkRateLimit_allowed, cleanup_maxRequests, hpre]
    have hrem : (s.checkRateLimit id t).2.remaining =
        if ((acc.length : Int) < s.maxRequests)
        then s.maxRequests - 1 - (acc.length : Int) else 0 := by
      rw [checkRateLimit_remaining, cleanup_maxRequests, hpre]
      by_cases hc : ((acc.length : Int) < s.maxRequests)
      · rw [if_pos (by simp [hc]), if_pos hc]
        omega
      · rw [if_neg (by simp [hc]), if_neg hc]
        omega
    have hm1 : 0 < (s.checkRateLimit id t).1.maxRequests := by
      rw [checkRateLimit_fst_maxRequests]; exact hm
    have hinv1 := inv_after_call s id acc t hm hpre
    have hw1 : ∀ x ∈ (if ((acc.length : Int) < s.maxRequests) then acc ++ [t] else acc) ++ ts1,
        ∀ u ∈ ts1, u - x < (s.checkRateLimit id t).1.windowMs := by
      rw [checkRateLimit_fst_windowMs]
      intro x hx u hu
      have hx1 : x ∈ acc ++ (t :: ts1) := by
        rcases List.mem_append.mp hx with h | h
        · have hcases : x ∈ acc ∨ x = t := by
            by_cases hc : ((acc.length : Int) < s.maxRequests)
            · rw [if_pos hc] at h
              rcases List.mem_append.mp h with h2 | h2
              · exact Or.inl h2
              · exact Or.inr (by simpa using h2)
            · rw [if_neg hc] at h
              exact Or.inl h
          rcases hcases with h1 | h1
          · exact List.mem_append.mpr (Or.inl h1)
          · subst h1; simp
        · simp [h]
      exact hw x hx1 u (by simp [hu])
    have htail := ih (s.checkRateLimit id t).1
      (if ((acc.length : Int) < s.maxRequests) then acc ++ [t] else acc) hm1 hinv1 hw1
    rw [checkRateLimit_fst_maxRequests] at htail
    have hhead : ((s.checkRateLimit id t).2.allowed, (s.checkRateLimit id t).2.remaining) =
        specPair ((acc.length : Int) + (((0 : Nat)) : Int)) s.maxRequests := by
      rw [hallow, hrem]
      simp [specPair]
    have htail2 : (runSeq id (s.checkRateLimit id t).1 ts1).2.map
          (fun r => (r.allowed, r.remaining)) =
        (List.range ts1.length).map
          ((fun (i : Nat) => specPair ((acc.length : Int) + (i : Int)) s.maxRequests)
            ∘ Nat.succ) := by
      rw [htail]
      apply List.map_congr_left
      intro i hi
      simp only [Function.comp_apply]
      by_cases hc : ((acc.length : Int) < s.maxRequests)
      · rw [if_pos hc]
        have harg : ((acc ++ [t]).length : Int) + (i : Int) =
            (acc.length : Int) + ((Nat.succ i : Nat) : Int) := by
          simp only [List.length_append, List.length_cons, List.length_nil]
          push_cast
          omega
        rw [harg]
      · rw [if_neg hc]
        apply specPair_ge
        · omega
        · push_cast
          omega
    simp only [runSeq, List.map_cons, List.length_cons]
    rw [List.range_succ_eq_map, List.map_cons, List.map_map, hhead, htail2]

/-- C1: for an identifier with no prior state, ten calls within one window are
all allowed with `remaining` decreasing from 9 to 0, and the eleventh call in
the same window is rejected. -/
theorem rateLimiter_quota_sequence (s : RateLimiter) (id : String) (ts : List Int)
    (hmax : s.maxRequests = 10)
    (hfresh : lookupA id s.store = none)
    (hlen : ts.length = 11)
    (hchain : List.Chain' (· ≤ ·) ts)
    (hwin : ∀ t1 ∈ ts, ∀ t2 ∈ ts, t2 - t1 < s.windowMs) :
    (runSeq id s ts).2.map (fun r => r.allowed) =
      [true, true, true, true, true, true, true, true, true, true, false] ∧
    (runSeq id s ts).2.map (fun r => r.remaining) =
      [9, 8, 7, 6, 5, 4, 3, 2, 1, 0, 0] := by
  have h := runSeq_spec id ts s [] (by omega) (Or.inl ⟨rfl, hfresh⟩)
    (fun x hx u hu => hwin x (by simpa using hx) u hu)
  rw [hlen, hmax] at h
  have hlit : (runSeq id s ts).2.map (fun r => (r.allowed, r.remaining)) =
      [(true, 9), (true, 8), (true, 7), (true, 6), (true, 5), (true, 4), (true, 3),
       (true, 2), (true, 1), (true, 0), (false, 0)] := by
    rw [h]
    decide
  constructor
  · have h1 := congrArg (List.map Prod.fst) hlit
    simpa [List.map_map, Function.comp] using h1
  · have h2 := congrArg (List.map Prod.snd) hlit
    simpa [List.map_map, Function.comp] using h2

/-- Witness for C1: eleven calls at times 0..10 on the fresh singleton. -/
theorem rateLimiter_quota_sequence_witness :
    (runSeq "1.2.3.4" (rateLimiterSingleton 0)
        [0, 1, 2, 3, 4, 5, 6, 7, 8, 9, 10]).2.map (fun r => r.allowed) =
      [true, true, true, true, true, true, true, true, true, true, false] ∧
    (runSeq "1.2.3.4" (rateLimiterSingleton 0)
        [0, 1, 2, 3, 4, 5, 6, 7, 8, 9, 10]).2.map (fun r => r.remaining) =
      [9, 8, 7, 6, 5, 4, 3, 2, 1, 0, 0] :=
  rateLimiter_quota_sequence (rateLimiterSingleton 0) "1.2.3.4"
    [0, 1, 2, 3, 4, 5, 6, 7, 8, 9, 10] rfl rfl rfl
    (List.chain'_iff_pairwise.mpr (by decide)) (by decide)

theorem station_ids_ne_empty : ∀ st ∈ stationsConfig.stations, st.id ≠ "" := by decide

theorem moon14_no_rate : ∀ x ∈ stationsConfig.stations.map Station.id,
    findRate x "37s-ko-vi-moon-14" = none ∧ findRate "37s-ko-vi-moon-14" x = none := by decide

theorem validate_ok_of (request : CalculatePriceRequest)
    (hpe : request.pickupStationId ≠ "") (hde : request.destinationStationId ≠ "")
    (hv0 : 0 < request.volume) (hv1 : request.volume ≤ stationsConfig.maxVolume)
    (hc0 : 0 ≤ request.collateral) (hc1 : request.collateral ≤ stationsConfig.maxCollateral)
    (hp : (stationsConfig.stations.find?
      (fun st => st.id = request.pickupStationId)).isSome = true)
    (hd : (stationsConfig.stations.find?
      (fun st => st.id = request.destinationStationId)).isSome = true)
    (hr : (findRate request.pickupStationId request.destinationStationId).isSome = true) :
    validateCalculationRequest request = Except.ok () := by
  unfold validateCalculationRequest
  rw [if_neg (by push_neg; exact ⟨hpe, hde⟩),
    if_neg (by push_neg; exact ⟨hv0, hv1⟩),
    if_neg (by push_neg; exact ⟨hc0, hc1⟩),
    if_neg (by
      simp only [Option.isNone_iff_eq_none]
      exact Option.isSome_iff_ne_none.mp hp),
    if_neg (by
      simp only [Option.isNone_iff_eq_none]
      exact Option.isSome_iff_ne_none.mp hd),
    if_neg (by
      simp only [Option.isNone_iff_eq_none]
      exact Option.isSome_iff_ne_none.mp hr)]

theorem validate_no_route_of (request : CalculatePriceRequest)
    (hpe : request.pickupStationId ≠ "") (hde : request.destinationStationId ≠ "")
    (hv0 : 0 < request.volume) (hv1 : request.volume ≤ stationsConfig.maxVolume)
    (hc0 : 0 ≤ request.collateral) (hc1 : request.collateral ≤ stationsConfig.maxCollateral)
    (hp : (stationsConfig.stations.find?
      (fun st => st.id = request.pickupStationId)).isSome = true)
    (hd : (stationsConfig.stations.find?
      (fun st => st.id = request.destinationStationId)).isSome = true)
    (hr : findRate request.pickupStationId request.destinationStationId = none) :
    validateCalculationRequest request = Except.error "Price route not available" := by
  unfold validateCalculationRequest
  rw [if_neg (by push_neg; exact ⟨hpe, hde⟩),
    if_neg (by push_neg; exact ⟨hv0, hv1⟩),
    if_neg (by push_neg; exact ⟨hc0, hc1⟩),
    if_neg (by
      simp only [Option.isNone_iff_eq_none]
      exact Option.isSome_iff_ne_none.mp hp),
    if_neg (by
      simp only [Option.isNone_iff_eq_none]
      exact Option.isSome_iff_ne_none.mp hd),
    if_pos (by rw [hr]; rfl)]

/-- C9: for a valid route and in-bounds volume and collateral, the calculator
returns `basePrice = rate * volume`, `collateralFee = collateral *
collateralPercentage` and their sum as `totalPrice`. -/
theorem calculatePrice_formula (request : CalculatePriceRequest) (rate : ℚ)
    (ps ds : Station)
    (hp : stationsConfig.stations.find? (fun st => st.id = request.pickupStationId) = some ps)
    (hd : stationsConfig.stations.find?
      (fun st => st.id = request.destinationStationId) = some ds)
    (hr : findRate request.pickupStationId request.destinationStationId = some rate)
    (hv0 : 0 < request.volume) (hv1 : request.volume ≤ stationsConfig.maxVolume)
    (hc0 : 0 ≤ request.collateral) (hc1 : request.collateral ≤ stationsConfig.maxCollateral) :
    calculatePrice request = Except.ok
      { basePrice := rate * request.volume,
        collateralFee := request.collateral * stationsConfig.collateralPercentage,
        totalPrice := rate * request.volume +
          request.collateral * stationsConfig.collateralPercentage,
        pickupStation := ps.name, destinationStation := ds.name,
        volume := request.volume, collateral := request.collateral } := by
  have hpe : request.pickupStationId ≠ "" := by
    have hid : ps.id = request.pickupStationId := by simpa using List.find?_some hp
    rw [← hid]
    exact station_ids_ne_empty ps (List.mem_of_find?_eq_some hp)
  have hde : request.destinationStationId ≠ "" := by
    have hid : ds.id = request.destinationStationId := by simpa using List.find?_some hd
    rw [← hid]
    exact station_ids_ne_empty ds (List.mem_of_find?_eq_some hd)
  have hval := validate_ok_of request hpe hde hv0 hv1 hc0 hc1
    (by rw [hp]; rfl) (by rw [hd]; rfl) (by rw [hr]; rfl)
  simp only [calculatePrice, hval]
  simp only [hp, hd, hr, Option.getD_some]

/-- Witness for C9: Jita to Saminer at rate 300, volume 1000, collateral
1000000, giving prices 300000, 10000 and 310000. -/
theorem calculatePrice_formula_witness :
    calculatePrice
        { pickupStationId := "jita-iv-moon-4", destinationStationId := "saminer",
          volume := 1000, collateral := 1000000 } = Except.ok
      { basePrice := 300000, collateralFee := 10000, totalPrice := 310000,
        pickupStation := "Jita IV - Moon 4 - Caldari Navy Assembly Plant",
        destinationStation := "Saminer - Stain is for Stain People",
        volume := 1000, collateral := 1000000 } :=
  (calculatePrice_formula
    { pickupStationId := "jita-iv-moon-4", destinationStationId := "saminer",
      volume := 1000, collateral := 1000000 } 300
    { id := "jita-iv-moon-4", name := "Jita IV - Moon 4 - Caldari Navy Assembly Plant",
      system := "Jita", systemId := 30000142 }
    { id := "saminer", name := "Saminer - Stain is for Stain People",
      system := "Saminer", systemId := 30001721 }
    (by decide) (by decide) (by decide) (by decide) (by decide) (by decide)
    (by decide)).trans (by
      simp only [Except.ok.injEq, CalculatePriceResponse.mk.injEq]
      norm_num [stationsConfig])

/-- C3: with in-bounds volume and collateral and both endpoints drawn from the
configured station list, any request whose pickup or destination is
`37s-ko-vi-moon-14` fails with `Price route not available`, because the price
matrix only ever uses the key `37s-ko-vi`. -/
theorem calculatePrice_moon14_no_route (request : CalculatePriceRequest)
    (hp : request.pickupStationId ∈ stationsConfig.stations.map Station.id)
    (hd : request.destinationStationId ∈ stationsConfig.stations.map Station.id)
    (hmoon : request.pickupStationId = "37s-ko-vi-moon-14" ∨
      request.destinationStationId = "37s-ko-vi-moon-14")
    (hv0 : 0 < request.volume) (hv1 : request.volume ≤ stationsConfig.maxVolume)
    (hc0 : 0 ≤ request.collateral) (hc1 : request.collateral ≤ stationsConfig.maxCollateral) :
    calculatePrice request = Except.error "Price route not available" := by
  have stationIds_ne : ∀ x ∈ stationsConfig.stations.map Station.id, x ≠ "" := by decide
  have hpe := stationIds_ne _ hp
  have hde := stationIds_ne _ hd
  have hpfind : (stationsConfig.stations.find?
      (fun st => st.id = request.pickupStationId)).isSome = true := by
    rw [List.find?_isSome]
    rcases List.mem_map.mp hp with ⟨st, hmem, hid⟩
    exact ⟨st, hmem, by simp [hid]⟩
  have hdfind : (stationsConfig.stations.find?
      (fun st => st.id = request.destinationStationId)).isSome = true := by
    rw [List.find?_isSome]
    rcases List.mem_map.mp hd with ⟨st, hmem, hid⟩
    exact ⟨st, hmem, by simp [hid]⟩
  have hrate : findRate request.pickupStationId request.destinationStationId = none := by
    rcases hmoon with hm | hm
    · rw [hm]
      exact (moon14_no_rate _ hd).2
    · rw [hm]
      exact (moon14_no_rate _ hp).1
  have hval := validate_no_route_of request hpe hde hv0 hv1 hc0 hc1 hpfind hdfind hrate
  simp only [calculatePrice, hval]

/-- Witness for C3: pickup `37s-ko-vi-moon-14` to `saminer` with volume 1 and
collateral 0 fails with the no-route error. -/
theorem calculatePrice_moon14_no_route_witness :
    calculatePrice
        { pickupStationId := "37s-ko-vi-moon-14", destinationStationId := "saminer",
          volume := 1, collateral := 0 } = Except.error "Price route not available" :=
  calculatePrice_moon14_no_route
    { pickupStationId := "37s-ko-vi-moon-14", destinationStationId := "saminer",
      volume := 1, collateral := 0 }
    (by decide) (by decide) (Or.inl rfl) (by decide) (by decide) (by decide) (by decide)

theorem isAllowedOrigin_eq_true_iff (allowedOrigins : List String) (origin : Option String) :
    isAllowedOrigin allowedOrigins origin = true ↔
      ∃ o ∈ allowedOrigins, origin = some o ∧ o ≠ "" := by
  cases origin with
  | none => simp [isAllowedOrigin, truthy]
  | some o =>
    simp only [isAllowedOrigin, truthy, Bool.and_eq_true, decide_eq_true_eq,
      Option.getD_some, Option.some.injEq]
    rw [List.elem_iff]
    constructor
    · rintro ⟨hne, hmem⟩
      exact ⟨o, hmem, rfl, hne⟩
    · rintro ⟨o1, hmem, rfl, hne⟩
      exact ⟨hne, hmem⟩

theorem isAllowedReferer_eq_true_iff (allowedOrigins : List String) (referer : Option String) :
    isAllowedReferer allowedOrigins referer = true ↔
      ∃ a ∈ allowedOrigins, ∃ r, referer = some r ∧ r ≠ "" ∧ strStartsWith r a = true := by
  cases referer with
  | none => simp [isAllowedReferer, truthy]
  | some r =>
    simp only [isAllowedReferer, truthy, Bool.and_eq_true, decide_eq_true_eq,
      Option.getD_some, Option.some.injEq, List.any_eq_true]
    constructor
    · rintro ⟨hne, a, hmem, hpre⟩
      exact ⟨a, hmem, r, rfl, hne, hpre⟩
    · rintro ⟨a, hmem, r1, rfl, hne, hpre⟩
      exact ⟨hne, a, hmem, hpre⟩

/-- C8 (amended): on a non-public `/api` path the middleware responds 403
exactly when neither the Origin header is present, nonempty and equal to an
allow-list entry, nor the Referer header is present, nonempty and prefixed by
an allow-list entry (empty header values are falsy in the source and hence
treated as absent). -/
theorem middleware_origin_gate (allowedOrigins noRateLimitIps : List String) (s : RateLimiter)
    (req : MwRequest) (now : Int)
    (hapi : strStartsWith req.path "/api" = true)
    (hnp : strStartsWith req.path "/api/public" = false) :
    (middleware allowedOrigins noRateLimitIps s req now).2 = MwResponse.forbidden ↔
      (¬ ∃ o ∈ allowedOrigins, req.origin = some o ∧ o ≠ "") ∧
      (¬ ∃ a ∈ allowedOrigins, ∃ r, req.referer = some r ∧ r ≠ "" ∧
        strStartsWith r a = true) := by
  have hiff : ((!(isAllowedOrigin allowedOrigins req.origin)
        && !(isAllowedReferer allowedOrigins req.referer)) = true) ↔
      (¬ ∃ o ∈ allowedOrigins, req.origin = some o ∧ o ≠ "") ∧
      (¬ ∃ a ∈ allowedOrigins, ∃ r, req.referer = some r ∧ r ≠ "" ∧
        strStartsWith r a = true) := by
    rw [Bool.and_eq_true, Bool.not_eq_true', Bool.not_eq_true',
      Bool.eq_false_iff, Bool.eq_false_iff, Ne, Ne,
      isAllowedOrigin_eq_true_iff, isAllowedReferer_eq_true_iff]
  unfold middleware
  rw [if_neg (by rw [hnp]; exact Bool.false_ne_true), if_pos (by rw [hapi, hnp]; rfl)]
  by_cases hcond : ((!(isAllowedOrigin allowedOrigins req.origin)
      && !(isAllowedReferer allowedOrigins req.referer)) = true)
  · rw [if_pos hcond]
    exact iff_of_true rfl (hiff.mp hcond)
  · rw [if_neg hcond]
    exact iff_of_false (by simp) (fun hr => hcond (hiff.mpr hr))

/-- Witness for C8 (amended): an internal API request with no Origin header
and a non-matching Referer is forbidden. -/
theorem middleware_origin_gate_witness :
    (middleware ["https://good.example"] [] (rateLimiterSingleton 0)
        { path := "/api/calculate-price", origin := none, referer := some "https://evil.example",
          xForwardedFor := none, xRealIp := none, cfConnectingIp := none } 0).2 =
        MwResponse.forbidden ↔
      (¬ ∃ o ∈ ["https://good.example"], (none : Option String) = some o ∧ o ≠ "") ∧
      (¬ ∃ a ∈ ["https://good.example"], ∃ r,
        (some "https://evil.example" : Option String) = some r ∧ r ≠ "" ∧
        strStartsWith r a = true) :=
  middleware_origin_gate ["https://good.example"] [] (rateLimiterSingleton 0)
    { path := "/api/calculate-price", origin := none, referer := some "https://evil.example",
      xForwardedFor := none, xRealIp := none, cfConnectingIp := none } 0
    (by decide) (by decide)

/-- Counterexample for C8 as stated: with the allow-list containing the empty
string and an Origin header whose value is the empty string, the Origin header
exactly matches an allow-list entry and yet the middleware responds 403,
because the source guards both checks behind JavaScript truthiness. -/
theorem middleware_origin_gate_counterexample :
    ¬ (∀ (allowedOrigins noRateLimitIps : List String) (s : RateLimiter) (req : MwRequest)
        (now : Int),
        strStartsWith req.path "/api" = true →
        strStartsWith req.path "/api/public" = false →
        ((middleware allowedOrigins noRateLimitIps s req now).2 = MwResponse.forbidden ↔
          (¬ ∃ o ∈ allowedOrigins, req.origin = some o) ∧
          (¬ ∃ a ∈ allowedOrigins, ∃ r, req.referer = some r ∧
            strStartsWith r a = true))) := by
  intro hclaim
  have h := (hclaim [""] [] (rateLimiterSingleton 0)
    { path := "/api/calculate-price", origin := some "", referer := none,
      xForwardedFor := none, xRealIp := none, cfConnectingIp := none } 0
    (by decide) (by decide)).mp (by decide)
  exact h.1 ⟨"", by simp, rfl⟩
